import Mathlib

/-!
Verification development for the Crank-Nicolson electron-transport solver
`cn_scheme` in `dark_matters/emissions/cn_electron.py`.

The development shallowly embeds the pieces of the solver that the checked
properties talk about:

* the energy-sweep stencil coefficients `E_alpha1/2/3` and the block
  tridiagonal assembly `spmatrices_loss` (exact rational arithmetic, with the
  energy-axis prefactor `E_prefactor` kept as an abstract coefficient
  function, since its value only enters the stencil pointwise);
* the right-hand-side construction of both Crank-Nicolson half-steps
  (`rhs = B.dot(psi.flatten(order)) + Q.flatten(order)*Delta_t`);
* the main `cn_2D` iteration loop: convergence / stability / timestep
  switching logic, boundary enforcement, snapshot recording and the hard
  iteration ceiling.  The two sparse linear solves (`scipy.sparse.linalg.
  spsolve` on the `loss` and `diff` systems) are external library calls and
  are passed in as arbitrary functions of the current `Delta_t` and the
  current state, so every theorem about the loop holds for every possible
  behaviour of the linear solver;
* the `Delta_t` initialisation logic of `solveElectrons`;
* the radial stencil coefficients `r_alpha1/3` and the energy-loss field
  `set_b` over the reals (these formulas involve `10 ** x`, `np.log` and
  `np.log10`, translated as `Real.rpow`, `Real.log` and `Real.logb`);
* an IEEE-style value domain `FVal` (finite rational / +inf / -inf / NaN)
  for the error-handling claim: the float special values are what the claim
  about non-finite entries is about, and the embedding mirrors how numpy
  propagates them through `set_D`, `set_dDdr` and `set_b`.

Python floats are modelled by exact rationals (or reals where logarithms
appear); integer grid indices are `Nat`/`Fin`.
-/

namespace DarkMatters

/-! ### Energy-sweep stencil coefficients (`cn_electron.py` lines 205-216)

`E_alpha3` is written in the source for a vectorised index array `j`:
`alpha[:-1]` takes the prefactor and loss rate at `j+1`, while the *last
position of the passed array* takes them at `j` itself.  The embedding keeps
that positional semantics: `len` is the length of the passed index array
`js`, and `p` is a position into it.  `eta` stands for `self.E_prefactor`
and `bi` for row `i` of `self.b`. -/

def E_alpha1 (_dt _dE : ℚ) (_eta _bi : ℕ → ℚ) (_p : ℕ) : ℚ := 0

def E_alpha2 (dt dE : ℚ) (eta bi : ℕ → ℚ) (j : ℕ) : ℚ :=
  dt * eta j * bi j / dE

def E_alpha3 (dt dE : ℚ) (eta bi : ℕ → ℚ) (len : ℕ) (js : ℕ → ℕ) (p : ℕ) : ℚ :=
  if p + 1 < len then dt * (eta (js p + 1) * bi (js p + 1) / dE)
  else dt * (eta (js p) * bi (js p) / dE)

/-! ### Block assembly of the loss (energy-sweep) matrices
(`cn_electron.py` lines 223-245)

The diagonals are length `I*J` arrays filled block by block;
`spmatrices_loss` calls `E_alpha3(i, np.arange(J)[:-1])`, i.e. the index
array is `0,...,J-2` of length `J-1`.  Positions `i*J + (J-1)` (block ends)
keep their initial zero. -/

def k_u (J : ℕ) (dt dE : ℚ) (eta : ℕ → ℚ) (b : ℕ → ℕ → ℚ) (n : ℕ) : ℚ :=
  if n % J < J - 1 then
    -(E_alpha3 dt dE eta (b (n / J)) (J - 1) (fun p => p) (n % J)) / 2
  else 0

def k_mA (J : ℕ) (dt dE : ℚ) (eta : ℕ → ℚ) (b : ℕ → ℕ → ℚ) (n : ℕ) : ℚ :=
  1 + E_alpha2 dt dE eta (b (n / J)) (n % J) / 2

def k_mB (J : ℕ) (dt dE : ℚ) (eta : ℕ → ℚ) (b : ℕ → ℕ → ℚ) (n : ℕ) : ℚ :=
  1 - E_alpha2 dt dE eta (b (n / J)) (n % J) / 2

def k_l (J : ℕ) (dt dE : ℚ) (eta : ℕ → ℚ) (b : ℕ → ℕ → ℚ) (n : ℕ) : ℚ :=
  if n % J < J - 1 then -(E_alpha1 dt dE eta (b (n / J)) n) / 2 else 0

/-- `scipy.sparse.diags(diagonals=[kl,km,ku], offsets=[-1,0,1], shape=(IJ,IJ))`:
entry `(r, r+1)` is `ku r`, entry `(r, r)` is `km r`, entry `(c+1, c)` is
`kl c`; arrays longer than a diagonal are truncated. -/
def sp_diags (IJ : ℕ) (kl km ku : ℕ → ℚ) (r c : ℕ) : ℚ :=
  if r < IJ ∧ c < IJ then
    if c = r + 1 then ku r
    else if c = r then km r
    else if r = c + 1 then kl c
    else 0
  else 0

def loss_A (I J : ℕ) (dt dE : ℚ) (eta : ℕ → ℚ) (b : ℕ → ℕ → ℚ) : ℕ → ℕ → ℚ :=
  sp_diags (I * J) (k_l J dt dE eta b) (k_mA J dt dE eta b) (k_u J dt dE eta b)

def loss_B (I J : ℕ) (dt dE : ℚ) (eta : ℕ → ℚ) (b : ℕ → ℕ → ℚ) : ℕ → ℕ → ℚ :=
  sp_diags (I * J) (fun n => -(k_l J dt dE eta b n))
    (k_mB J dt dE eta b) (fun n => -(k_u J dt dE eta b n))

/-! ### Right-hand sides of the two half-steps (`cn_2D`, lines 445-453)

`psi.flatten('C')` is row major (`n -> psi[n / J, n % J]`),
`psi.flatten('F')` is column major (`n -> psi[n % I, n / I]`).
`rhs = B.dot(flat psi) + flat Q * Delta_t`. -/

def flatC (J : ℕ) (psi : ℕ → ℕ → ℚ) (n : ℕ) : ℚ := psi (n / J) (n % J)

def flatF (I : ℕ) (psi : ℕ → ℕ → ℚ) (n : ℕ) : ℚ := psi (n % I) (n / I)

def rhs_loss (I J : ℕ) (B : ℕ → ℕ → ℚ) (psi Q : ℕ → ℕ → ℚ) (dt : ℚ) (r : ℕ) : ℚ :=
  (∑ c ∈ Finset.range (I * J), B r c * flatC J psi c) + flatC J Q r * dt

def rhs_diff (I J : ℕ) (B : ℕ → ℕ → ℚ) (psi Q : ℕ → ℕ → ℚ) (dt : ℚ) (r : ℕ) : ℚ :=
  (∑ c ∈ Finset.range (I * J), B r c * flatF I psi c) + flatF I Q r * dt

/-! ### The main `cn_2D` loop (`cn_electron.py` lines 269-491)

The radial grid has `I + 1` nodes (`r_bins = I + 1`), so the interior slice
`psi[:-1]` has `I` rows; the energy grid has `J` nodes.  The two sparse
solves are passed in as functions `lossStep`/`diffStep` of the current
`Delta_t` (matrices are rebuilt from `Delta_t` whenever it changes) and the
current distribution; all loop theorems are universally quantified over
them.  Comparisons on `psi` follow the IEEE conventions the numpy code
relies on; where exact rational arithmetic and float arithmetic would give
the same branch (everywhere below), the formula is carried over verbatim. -/

inductive Effect where
  | loss | diffusion | all
deriving DecidableEq

structure CNConfig (I J : ℕ) where
  effect : Effect
  benchmark : Bool
  constDt : Bool
  smallestDt : ℚ
  dtReduction : ℚ
  maxTPart : ℕ
  animation : Bool
  lossTs : Fin I → Fin J → ℚ
  diffTs : Fin I → Fin J → ℚ

structure CNState (I J : ℕ) where
  psi : Fin (I + 1) → Fin J → ℚ
  psiPrev : Fin (I + 1) → Fin J → ℚ
  dt : ℚ
  t : ℕ
  tPart : ℕ
  snaps : List ((Fin I → Fin J → ℚ) × ℚ)
  conv : Bool

/-- `stability_tol = 1.0e-5` (line 318). -/
def stability_tol : ℚ := 1e-5

def interior {I J : ℕ} (psi : Fin (I + 1) → Fin J → ℚ) : Fin I → Fin J → ℚ :=
  fun i j => psi i.castSucc j

/-- `psi[-1,:] = 0` (lines 305 and 456). -/
def setLastRow {I J : ℕ} (psi : Fin (I + 1) → Fin J → ℚ) : Fin (I + 1) → Fin J → ℚ :=
  fun i j => if i = Fin.last I then 0 else psi i j

/-- `np.all(np.abs(psi[:-1]/psi_prev[:-1]-1.0) < stability_tol)` (line 371).
With `psi_prev = 0` the float quotient is `inf` or `nan` and the cell test
is false; the rational quotient is `0` and `|0 - 1| < 1e-5` is false too,
so the verbatim formula has the same value. -/
def relDiffC {I J : ℕ} (s : CNState I J) : Bool :=
  decide (∀ (i : Fin I) (j : Fin J),
    |s.psi i.castSucc j / s.psiPrev i.castSucc j - 1| < stability_tol)

/-- One cell of `psi_ts > ts` where `psi_ts = np.abs(psi/dpsidt)` and
`dpsidt = (psi - psi_prev)/Delta_t` (lines 380-386).  When `dpsidt = 0`
the float `psi_ts` is `inf` (cell test true) for `psi` nonzero and `nan`
(cell test false) for `psi = 0`; that conditional is explicit here. -/
def psiTsCell (dt psi prev ts : ℚ) : Bool :=
  let d := (psi - prev) / dt
  if d = 0 then decide (psi ≠ 0) else decide (|psi / d| > ts)

def lossTsC {I J : ℕ} (cfg : CNConfig I J) (s : CNState I J) : Bool :=
  decide (∀ (i : Fin I) (j : Fin J),
    psiTsCell s.dt (s.psi i.castSucc j) (s.psiPrev i.castSucc j) (cfg.lossTs i j) = true)

def diffTsC {I J : ℕ} (cfg : CNConfig I J) (s : CNState I J) : Bool :=
  decide (∀ (i : Fin I) (j : Fin J),
    psiTsCell s.dt (s.psi i.castSucc j) (s.psiPrev i.castSucc j) (cfg.diffTs i j) = true)

/-- `ts_check` (lines 387-392). -/
def tsC {I J : ℕ} (cfg : CNConfig I J) (s : CNState I J) : Bool :=
  match cfg.effect with
  | .loss => lossTsC cfg s
  | .diffusion => diffTsC cfg s
  | .all => lossTsC cfg s && diffTsC cfg s

/-- `np.all(np.abs(dpsidt) == 0)` (line 397). -/
def benchC {I J : ℕ} (s : CNState I J) : Bool :=
  decide (∀ (i : Fin I) (j : Fin J),
    (s.psi i.castSucc j - s.psiPrev i.castSucc j) / s.dt = 0)

/-- `stability_check` (lines 374-377); it is recomputed only when `t > 1`
and keeps its initial `False` before that. -/
def stabilityC {I J : ℕ} (cfg : CNConfig I J) (s : CNState I J) : Bool :=
  decide (1 < s.t) && (if cfg.constDt then relDiffC s else decide (cfg.maxTPart < s.tPart))

/-- Matrix-solution part of one outer iteration (lines 436-469): store
`psi_prev`, run the active half-step solves, enforce the outer boundary,
bump the counters and (if animating) append `(psi.copy()[:-1], Delta_t)`. -/
def update {I J : ℕ} (cfg : CNConfig I J)
    (lossStep diffStep : ℚ → (Fin (I + 1) → Fin J → ℚ) → (Fin (I + 1) → Fin J → ℚ))
    (s : CNState I J) : CNState I J :=
  let p1 := if cfg.effect = .loss ∨ cfg.effect = .all then lossStep s.dt s.psi else s.psi
  let p2 := if cfg.effect = .diffusion ∨ cfg.effect = .all then diffStep s.dt p1 else p1
  let p3 := setLastRow p2
  { psi := p3
    psiPrev := s.psi
    dt := s.dt
    t := s.t + 1
    tPart := s.tPart + 1
    snaps := if cfg.animation then s.snaps ++ [(interior p3, s.dt)] else s.snaps
    conv := s.conv }

/-- Breaking out of the loop sets `convergence_check = True` and leaves the
rest of the state untouched (lines 404-405, 411-412, 433-434). -/
def markConv {I J : ℕ} (s : CNState I J) : CNState I J := { s with conv := true }

/-- Timestep switching (lines 417-420): `Delta_t *= Delta_t_reduction` and
`t_part = 0`; the matrices are rebuilt from the new `Delta_t` when the
half-step functions are next applied. -/
def reduceDt {I J : ℕ} (cfg : CNConfig I J) (s : CNState I J) : CNState I J :=
  { s with dt := s.dt * cfg.dtReduction, tPart := 0 }

inductive StepRes (I J : ℕ) where
  | done (s : CNState I J)
  | next (s : CNState I J)

def StepRes.isDone {I J : ℕ} : StepRes I J → Bool
  | .done _ => true
  | .next _ => false

def StepRes.dtv {I J : ℕ} : StepRes I J → ℚ
  | .done s => s.dt
  | .next s => s.dt

def StepRes.tv {I J : ℕ} : StepRes I J → ℕ
  | .done s => s.t
  | .next s => s.t

/-- One pass of the `while` body (lines 338-469).  Inside the
`stability_check` branch the iteration count is `> 1`, so the freshly
recomputed `ts_check` / `rel_diff_check` / `benchmark_check` values of
lines 370-397 coincide with the ungated `tsC` / `relDiffC` / `benchC`. -/
def step {I J : ℕ} (cfg : CNConfig I J)
    (lossStep diffStep : ℚ → (Fin (I + 1) → Fin J → ℚ) → (Fin (I + 1) → Fin J → ℚ))
    (s : CNState I J) : StepRes I J :=
  if stabilityC cfg s then
    if cfg.benchmark then
      if tsC cfg s && benchC s then .done (markConv s)
      else .next (update cfg lossStep diffStep s)
    else if cfg.constDt then
      if tsC cfg s then .done (markConv s)
      else .next (update cfg lossStep diffStep s)
    else
      if cfg.smallestDt < s.dt then
        .next (update cfg lossStep diffStep (reduceDt cfg s))
      else if s.dt < cfg.smallestDt then
        if tsC cfg s || relDiffC s then .done (markConv s)
        else .next (update cfg lossStep diffStep s)
      else .next (update cfg lossStep diffStep s)
  else .next (update cfg lossStep diffStep s)

/-- `while not(convergence_check) and (t < max_t)` with `max_t = 1e4`
(lines 325 and 338).  Each pass through the body either breaks or
increments `t`, so `10000` passes of fuel replicate the `while` exactly:
when the fuel runs out `t` has reached `10000` and the guard is false. -/
def cnLoop {I J : ℕ} (cfg : CNConfig I J)
    (lossStep diffStep : ℚ → (Fin (I + 1) → Fin J → ℚ) → (Fin (I + 1) → Fin J → ℚ)) :
    ℕ → CNState I J → CNState I J
  | 0, s => s
  | f + 1, s =>
    if s.t < 10000 then
      match step cfg lossStep diffStep s with
      | .done s1 => s1
      | .next s1 => cnLoop cfg lossStep diffStep f s1
    else s

/-- Pre-loop setup (lines 303-334): `psi = np.array(Q)`, `psi[-1,:] = 0`,
zeroed counters, and the initial animation snapshot. -/
def initState {I J : ℕ} (cfg : CNConfig I J) (dt0 : ℚ)
    (Q : Fin (I + 1) → Fin J → ℚ) : CNState I J :=
  let psi0 := setLastRow Q
  { psi := psi0
    psiPrev := psi0
    dt := dt0
    t := 0
    tPart := 0
    snaps := if cfg.animation then [(interior psi0, dt0)] else []
    conv := false }

def cn_2D {I J : ℕ} (cfg : CNConfig I J)
    (lossStep diffStep : ℚ → (Fin (I + 1) → Fin J → ℚ) → (Fin (I + 1) → Fin J → ℚ))
    (dt0 : ℚ) (Q : Fin (I + 1) → Fin J → ℚ) : CNState I J :=
  cnLoop cfg lossStep diffStep 10000 (initState cfg dt0 Q)

/-- `return self.cn_2D(self.Q).transpose()` (line 129): the external result
has the energy index first. -/
def solveElectrons_return {I J : ℕ} (cfg : CNConfig I J)
    (lossStep diffStep : ℚ → (Fin (I + 1) → Fin J → ℚ) → (Fin (I + 1) → Fin J → ℚ))
    (dt0 : ℚ) (Q : Fin (I + 1) → Fin J → ℚ) : Fin J → Fin (I + 1) → ℚ :=
  fun j i => (cn_2D cfg lossStep diffStep dt0 Q).psi i j

/-! ### `Delta_t` initialisation in `solveElectrons` (lines 98-119) -/

/-- `Delta_t = Delta_ti * adi_factor * stability_factor` where `Delta_ti`
is the accelerated initial step when `const_Delta_t` stays `False`, and the
minimum active timescale otherwise; `benchmark_flag` forces
`const_Delta_t = True` first. -/
def init_Delta_t (benchmark constDt0 : Bool) (effect : Effect)
    (lossMin diffMin accelDti : ℚ) : ℚ :=
  let constDt := if benchmark then true else constDt0
  let dti :=
    if constDt = false then accelDti
    else
      match effect with
      | .loss => lossMin
      | .diffusion => diffMin
      | .all => min lossMin diffMin
  let stabilityFactor : ℚ := if benchmark then 1 / 10 else 1
  let adiFactor : ℚ := if effect = .all then 1 / 2 else 1
  dti * adiFactor * stabilityFactor

/-! ### IEEE-style value domain for the error-handling behaviour

`solveElectrons` builds `D`, `dDdr` and `b` with numpy float arithmetic and
then calls `cn_2D` directly; there is no finiteness check anywhere on the
path (lines 84-129).  To talk about non-finite entries at all, the values
are modelled as finite rationals plus `inf`, `-inf` and `nan` with the
numpy/IEEE propagation rules used on this path. -/

inductive FVal where
  | fin (q : ℚ)
  | inf
  | ninf
  | nan
deriving DecidableEq

namespace FVal

def isFinite : FVal → Bool
  | fin _ => true
  | _ => false

def fneg : FVal → FVal
  | fin a => fin (-a)
  | inf => ninf
  | ninf => inf
  | nan => nan

def fadd : FVal → FVal → FVal
  | nan, _ => nan
  | _, nan => nan
  | fin a, fin b => fin (a + b)
  | fin _, inf => inf
  | inf, fin _ => inf
  | fin _, ninf => ninf
  | ninf, fin _ => ninf
  | inf, inf => inf
  | ninf, ninf => ninf
  | inf, ninf => nan
  | ninf, inf => nan

def fmul : FVal → FVal → FVal
  | nan, _ => nan
  | _, nan => nan
  | fin a, fin b => fin (a * b)
  | fin a, inf => if 0 < a then inf else if a < 0 then ninf else nan
  | inf, fin a => if 0 < a then inf else if a < 0 then ninf else nan
  | fin a, ninf => if 0 < a then ninf else if a < 0 then inf else nan
  | ninf, fin a => if 0 < a then ninf else if a < 0 then inf else nan
  | inf, inf => inf
  | ninf, ninf => inf
  | inf, ninf => ninf
  | ninf, inf => ninf

def fdiv : FVal → FVal → FVal
  | nan, _ => nan
  | _, nan => nan
  | fin a, fin b =>
    if b = 0 then (if 0 < a then inf else if a < 0 then ninf else nan)
    else fin (a / b)
  | fin _, inf => fin 0
  | fin _, ninf => fin 0
  | inf, fin b => if 0 ≤ b then inf else ninf
  | ninf, fin b => if 0 ≤ b then ninf else inf
  | inf, inf => nan
  | inf, ninf => nan
  | ninf, inf => nan
  | ninf, ninf => nan

/-- `np.log`; the (irrelevant) finite value of the logarithm of a positive
rational is supplied by an arbitrary function `logFin`. -/
def flog (logFin : ℚ → ℚ) : FVal → FVal
  | fin a => if 0 < a then fin (logFin a) else if a = 0 then ninf else nan
  | inf => inf
  | ninf => nan
  | nan => nan

/-- Strict `>` with `nan` incomparable, as in `np.where(D > dLim, ...)`. -/
def fgt : FVal → FVal → Bool
  | nan, _ => false
  | _, nan => false
  | fin a, fin b => decide (b < a)
  | fin _, inf => false
  | inf, fin _ => true
  | inf, inf => false
  | inf, ninf => true
  | ninf, _ => false
  | fin _, ninf => true

end FVal

namespace FModel

open FVal

/-- `set_D` (lines 134-143) for one grid cell; the float power function
`B ** e` is abstracted as `fpow`, `alpha = 2 - delta`. -/
def set_D (fpow : FVal → ℚ → FVal) (D0 d0 alpha : ℚ) (B E : FVal) : FVal :=
  let D := fmul (fmul (fmul (fin D0) (fpow (fin d0) (1 - alpha))) (fpow B (-alpha)))
    (fpow E alpha)
  let dLim := fmul (fin 1e32) (fpow E alpha)
  if fgt D dLim then dLim else D

/-- `set_dDdr` (lines 145-156) for one grid cell; `pf` is the sampled
`r_prefactor` value for this radius. -/
def set_dDdr (fpow : FVal → ℚ → FVal) (pf : FVal) (D0 d0 alpha : ℚ)
    (B dBdr E : FVal) : FVal :=
  fmul (fmul (fmul (fmul (fneg (fmul (fmul (fdiv (fin 1) pf) (fin D0)) (fin alpha)))
    (fpow (fin d0) (1 - alpha))) (fpow B (-alpha - 1))) dBdr) (fpow E alpha)

/-- `set_b` (lines 158-165) for one grid cell, with the constant dictionary
of line 74 inlined (`z` is the redshift). -/
def set_b (logFin : ℚ → ℚ) (z : ℚ) (B ne E : FVal) : FVal :=
  let ICISRF : FVal := fin (6.08e-16 + 0.25e-16 * (1 + z) ^ 4)
  let me : ℚ := 0.511e-3
  fadd
    (fadd
      (fadd (fmul ICISRF (fmul E E))
        (fmul (fmul (fin 0.0254e-16) (fmul E E)) (fmul B B)))
      (fmul (fmul (fin 6.13e-16) ne)
        (fadd (fin 1) (fdiv (flog logFin (fdiv E (fmul (fin me) ne))) (fin 75)))))
    (fmul (fmul (fin 4.7e-16) ne) E)

/-- The coefficient-construction stage of `solveElectrons` (lines 78-129):
the broadcast tensors `Btens`, `netens`, `dBdrtens`, `Etens` repeat the
radial samples along the energy axis and vice versa; `D`, `dDdr` and `b`
are built cellwise from them, and control then flows straight into
`cn_2D(Q)` — there is no conditional between construction and the solve,
so the result is always `Except.ok`.  (`Delta_t` bookkeeping and printing
on lines 88-125 inspect only timescales and raise nothing; the `Delta_t`
logic is embedded separately as `init_Delta_t`.)  The return type is
`Except` so that a fatal, caller-visible failure is representable. -/
def solveElectrons {R : Type} (fpow : FVal → ℚ → FVal) (logFin : ℚ → ℚ)
    (pf : ℕ → FVal) (z D0 d0 alpha : ℚ)
    (E_grid b_sample ne_sample dBdr_sample : ℕ → FVal)
    (Q : ℕ → ℕ → FVal)
    (cn2d : (ℕ → ℕ → FVal) → (ℕ → ℕ → FVal) → (ℕ → ℕ → FVal) →
      (ℕ → ℕ → FVal) → R) : Except String R :=
  let D := fun i j => set_D fpow D0 d0 alpha (b_sample i) (E_grid j)
  let dDdr := fun i j =>
    set_dDdr fpow (pf i) D0 d0 alpha (b_sample i) (dBdr_sample i) (E_grid j)
  let b := fun i j => set_b logFin z (b_sample i) (ne_sample i) (E_grid j)
  Except.ok (cn2d D dDdr b Q)

def isOk {R : Type} : Except String R → Bool
  | .ok _ => true
  | .error _ => false

end FModel

/-! ### Concrete instances used to exercise the loop embedding

A 2-node radial grid (`I = 1`, one interior row), 1-node energy grid,
identity linear solves, uniform unit source and unit timescales.  With
these, `cn_2D` converges at the first pass that runs its checks (`t = 2`),
which keeps kernel evaluation of the concrete runs small. -/

def idStep {I J : ℕ} : ℚ → (Fin (I + 1) → Fin J → ℚ) → (Fin (I + 1) → Fin J → ℚ) :=
  fun _ psi => psi

def unitQ : Fin 2 → Fin 1 → ℚ := fun _ _ => 1

/-- Constant-timestep, loss-only, animated configuration. -/
def cfgConst : CNConfig 1 1 :=
  { effect := .loss
    benchmark := false
    constDt := true
    smallestDt := 1
    dtReduction := 1 / 2
    maxTPart := 100
    animation := true
    lossTs := fun _ _ => 1
    diffTs := fun _ _ => 1 }

/-- Benchmark configuration (constant timestep, as forced by
`solveElectrons`). -/
def cfgBench : CNConfig 1 1 :=
  { effect := .loss
    benchmark := true
    constDt := true
    smallestDt := 1
    dtReduction := 1 / 2
    maxTPart := 100
    animation := false
    lossTs := fun _ _ => 1
    diffTs := fun _ _ => 1 }

/-- Accelerated configuration with `max_t_part = 1`. -/
def cfgAccel : CNConfig 1 1 :=
  { effect := .loss
    benchmark := false
    constDt := false
    smallestDt := 1
    dtReduction := 1 / 2
    maxTPart := 1
    animation := false
    lossTs := fun _ _ => 1
    diffTs := fun _ _ => 1 }

/-- A mid-run state in accelerated mode whose `Delta_t` sits exactly at
`smallest_Delta_t`: the distribution has stopped changing, so
`rel_diff_check`, `ts_check` and (via `t_part`) `stability_check` all
hold. -/
def stateAtMin : CNState 1 1 :=
  { psi := fun i _ => if i = Fin.last 1 then 0 else 1
    psiPrev := fun i _ => if i = Fin.last 1 then 0 else 1
    dt := 1
    t := 5
    tPart := 3
    snaps := []
    conv := false }

/-- Same state with `Delta_t` strictly above `smallest_Delta_t`. -/
def stateAboveMin : CNState 1 1 :=
  { stateAtMin with dt := 2 }

/-- Constant unit energy prefactor sample, for exercising the energy-sweep
stencil assembly. -/
def etaC : ℕ → ℚ := fun _ => 1

/-- Loss-rate sample whose top-energy value differs from the others, so the
two candidate super-diagonal formulas disagree. -/
def bC : ℕ → ℕ → ℚ := fun _ n => if n = 2 then 5 else 1

/-! ### Real-valued coefficient formulas

`r_prefactor`, `E_prefactor` (lines 171-175), the radial stencil
coefficients `r_alpha1` / `r_alpha3` (lines 185-203) and the energy-loss
field `set_b` (lines 74, 79-86, 158-165).  `10 ** x` is `Real.rpow`,
`np.log` is `Real.log`, and the `np.log10(10)` factor appearing verbatim in
`r_alpha1` / `r_alpha3` is `Real.logb 10 10`. -/

noncomputable section

/-- `(10**self.logr_grid[i]*np.log(10)*self.r0)**-1`. -/
def r_prefactor (r0 : ℝ) (logr_grid : ℕ → ℝ) (i : ℕ) : ℝ :=
  ((10 : ℝ) ^ (logr_grid i) * Real.log 10 * r0)⁻¹

/-- `(10**self.logE_grid[j]*np.log(10)*self.E0)**-1`. -/
def E_prefactor (E0 : ℝ) (logE_grid : ℕ → ℝ) (j : ℕ) : ℝ :=
  ((10 : ℝ) ^ (logE_grid j) * Real.log 10 * E0)⁻¹

/-- `r_alpha1` body (line 187), applied uniformly to every requested index. -/
def r_alpha1 (dt dr r0 : ℝ) (logr_grid : ℕ → ℝ) (D dDdr : ℕ → ℕ → ℝ)
    (i j : ℕ) : ℝ :=
  dt * r_prefactor r0 logr_grid i ^ 2 *
    (-(Real.logb 10 10 * D i j + dDdr i j) / (2 * dr) + D i j / dr ^ 2)

/-- `r_alpha3` (lines 198-203): reflective boundary value at `i = 0`,
drift-diffusion stencil for `i ≥ 1`. -/
def r_alpha3 (dt dr r0 : ℝ) (logr_grid : ℕ → ℝ) (D dDdr : ℕ → ℕ → ℝ)
    (i j : ℕ) : ℝ :=
  if i = 0 then dt * r_prefactor r0 logr_grid 0 ^ 2 * 4 * D 0 j / dr ^ 2
  else
    dt * r_prefactor r0 logr_grid i ^ 2 *
      ((Real.logb 10 10 * D i j + dDdr i j) / (2 * dr) + D i j / dr ^ 2)

/-- The claimed interior coefficient
`alpha1_r(i,j) = dt * xi_i^2 * (-(ln10 * D + dDdr)/(2 dr) + D/dr^2)`,
with `ln10` the natural logarithm of 10.  Written from the spec sentence to
compare with `r_alpha1` as implemented. -/
def r_alpha1_claim (dt dr r0 : ℝ) (logr_grid : ℕ → ℝ) (D dDdr : ℕ → ℕ → ℝ)
    (i j : ℕ) : ℝ :=
  dt * r_prefactor r0 logr_grid i ^ 2 *
    (-(Real.log 10 * D i j + dDdr i j) / (2 * dr) + D i j / dr ^ 2)

/-- The claimed interior coefficient
`alpha3_r(i,j) = dt * xi_i^2 * ((ln10 * D + dDdr)/(2 dr) + D/dr^2)` for
`i ≥ 1`, written from the spec sentence. -/
def r_alpha3_claim (dt dr r0 : ℝ) (logr_grid : ℕ → ℝ) (D dDdr : ℕ → ℕ → ℝ)
    (i j : ℕ) : ℝ :=
  dt * r_prefactor r0 logr_grid i ^ 2 *
    ((Real.log 10 * D i j + dDdr i j) / (2 * dr) + D i j / dr ^ 2)

/-- `set_b` for one cell: `self.constants` of line 74 and the `eloss`
formula of line 162, with `me = 0.511e-3`. -/
def set_b (z B ne E : ℝ) : ℝ :=
  let ICISRF : ℝ := 6.08e-16 + 0.25e-16 * (1 + z) ^ 4
  let sync : ℝ := 0.0254e-16
  let coul : ℝ := 6.13e-16
  let brem : ℝ := 4.7e-16
  let me : ℝ := 0.511e-3
  ICISRF * E ^ 2 + sync * E ^ 2 * B ^ 2 + coul * ne * (1 + Real.log (E / (me * ne)) / 75) +
    brem * ne * E

/-- The loss array of `solveElectrons`: `set_b(Btens, netens, Etens)` where
`Btens[i,j] = b_sample[i]`, `netens[i,j] = ne_sample[i]`,
`Etens[i,j] = E_grid[j]` (lines 79-86). -/
def b_grid (z : ℝ) (b_sample ne_sample E_grid : ℕ → ℝ) (i j : ℕ) : ℝ :=
  set_b z (b_sample i) (ne_sample i) (E_grid j)

end

/-! ## Theorems

Batteries marks rational arithmetic `@[irreducible]`; the concrete runs
below are evaluated by the kernel, which needs these definitions
unfoldable. -/

attribute [local semireducible] Rat.add Rat.sub Rat.mul Rat.inv Rat.ofScientific

/-! ### Flattened-index bookkeeping -/

theorem idx_div {J : ℕ} (i j : ℕ) (h : j < J) : (i * J + j) / J = i := by
  rw [Nat.mul_comm, Nat.mul_add_div (by omega), Nat.div_eq_of_lt h, Nat.add_zero]

theorem idx_mod {J : ℕ} (i j : ℕ) (h : j < J) : (i * J + j) % J = j :=
  Nat.mul_add_mod_of_lt h

/-! ### Shape lemmas for one pass of the loop body -/

theorem update_t {I J : ℕ} (cfg : CNConfig I J) (L Df) (s : CNState I J) :
    (update cfg L Df s).t = s.t + 1 := rfl

theorem update_dt {I J : ℕ} (cfg : CNConfig I J) (L Df) (s : CNState I J) :
    (update cfg L Df s).dt = s.dt := rfl

theorem update_lastRow {I J : ℕ} (cfg : CNConfig I J) (L Df) (s : CNState I J)
    (j : Fin J) : (update cfg L Df s).psi (Fin.last I) j = 0 := by
  simp [update, setLastRow]

theorem step_done_eq {I J : ℕ} (cfg : CNConfig I J) (L Df) (s s1 : CNState I J)
    (h : step cfg L Df s = .done s1) : s1 = markConv s := by
  unfold step at h
  split_ifs at h <;> simp_all

theorem step_next_eq {I J : ℕ} (cfg : CNConfig I J) (L Df) (s s1 : CNState I J)
    (h : step cfg L Df s = .next s1) :
    s1 = update cfg L Df s ∨ s1 = update cfg L Df (reduceDt cfg s) := by
  unfold step at h
  split_ifs at h <;> simp_all

/-! ### Loop invariants -/

theorem cnLoop_t_le {I J : ℕ} (cfg : CNConfig I J) (L Df) :
    ∀ (f : ℕ) (s : CNState I J), (cnLoop cfg L Df f s).t ≤ s.t + f := by
  intro f
  induction f with
  | zero => intro s; simp [cnLoop]
  | succ n ih =>
    intro s
    rw [cnLoop]
    split
    · cases hstep : step cfg L Df s with
      | done s1 =>
        have h1 : s1 = markConv s := step_done_eq cfg L Df s s1 hstep
        have h2 : s1.t = s.t := by rw [h1]; rfl
        show s1.t ≤ s.t + (n + 1)
        omega
      | next s1 =>
        have h1 := step_next_eq cfg L Df s s1 hstep
        have h2 : s1.t = s.t + 1 := by
          rcases h1 with h1 | h1 <;> simp [h1, update, reduceDt]
        have h3 := ih s1
        show (cnLoop cfg L Df n s1).t ≤ s.t + (n + 1)
        omega
    · omega

theorem cnLoop_lastRow {I J : ℕ} (cfg : CNConfig I J) (L Df) :
    ∀ (f : ℕ) (s : CNState I J), (∀ j, s.psi (Fin.last I) j = 0) →
      ∀ j, (cnLoop cfg L Df f s).psi (Fin.last I) j = 0 := by
  intro f
  induction f with
  | zero => intro s hs j; simpa [cnLoop] using hs j
  | succ n ih =>
    intro s hs j
    rw [cnLoop]
    split
    · cases hstep : step cfg L Df s with
      | done s1 =>
        have h1 : s1 = markConv s := step_done_eq cfg L Df s s1 hstep
        show s1.psi (Fin.last I) j = 0
        rw [h1]
        exact hs j
      | next s1 =>
        show (cnLoop cfg L Df n s1).psi (Fin.last I) j = 0
        refine ih s1 ?_ j
        intro j1
        rcases step_next_eq cfg L Df s s1 hstep with h1 | h1 <;>
          simp [h1, update_lastRow]
    · exact hs j

/-- Claim C6: for every configuration, every behaviour of the two sparse
half-step solvers and every source array, the main CN loop performs at most
`10^4` outer iterations; the (total) function `cn_2D` then returns the
current `psi` state even if no convergence criterion ever fired. -/
theorem claim6_termination {I J : ℕ} (cfg : CNConfig I J) (L Df) (dt0 : ℚ)
    (Q : Fin (I + 1) → Fin J → ℚ) : (cn_2D cfg L Df dt0 Q).t ≤ 10000 := by
  have h := cnLoop_t_le cfg L Df 10000 (initState cfg dt0 Q)
  simpa [cn_2D, initState] using h

/-- Claim C5: the value returned by `solveElectrons` is indexed energy
first (type `Fin J → Fin (I+1) → ℚ`, the transpose of the internal
layout), and its outer-radial-boundary entries vanish: for every energy
index `j`, the entry at radial index `N_r - 1 = Fin.last I` is `0`, for
every configuration, solver behaviour, initial step and source. -/
theorem claim5_return_shape_boundary {I J : ℕ} (cfg : CNConfig I J) (L Df)
    (dt0 : ℚ) (Q : Fin (I + 1) → Fin J → ℚ) (j : Fin J) :
    solveElectrons_return cfg L Df dt0 Q j (Fin.last I) = 0 := by
  refine cnLoop_lastRow cfg L Df 10000 (initState cfg dt0 Q) ?_ j
  intro j1
  simp [initState, setLastRow]

theorem step_next_dt_bench {I J : ℕ} (cfg : CNConfig I J) (L Df)
    (s s1 : CNState I J) (hb : cfg.benchmark = true)
    (h : step cfg L Df s = .next s1) : s1.dt = s.dt := by
  unfold step at h
  rw [hb] at h
  split_ifs at h
  all_goals first
    | exact StepRes.noConfusion h
    | exact absurd rfl (by assumption)
    | (injection h with h; subst h; rfl)

theorem cnLoop_dt_bench {I J : ℕ} (cfg : CNConfig I J) (L Df)
    (hb : cfg.benchmark = true) :
    ∀ (f : ℕ) (s : CNState I J), (cnLoop cfg L Df f s).dt = s.dt := by
  intro f
  induction f with
  | zero => intro s; simp [cnLoop]
  | succ n ih =>
    intro s
    rw [cnLoop]
    split
    · cases hstep : step cfg L Df s with
      | done s1 =>
        have h1 : s1 = markConv s := step_done_eq cfg L Df s s1 hstep
        show s1.dt = s.dt
        rw [h1]; rfl
      | next s1 =>
        show (cnLoop cfg L Df n s1).dt = s.dt
        rw [ih s1, step_next_dt_bench cfg L Df s s1 hb hstep]
    · rfl

/-- Claim C10: `benchmark_flag = True` forces the constant-timestep branch
regardless of the `const_Delta_t` argument, so the initial `Delta_t` is the
minimum active timescale times `0.1` (times `0.5` when the effect set is
`all`), and a benchmark run never takes the accelerated `Delta_t`-reduction
branch: the timestep at the end of `cn_2D` is still the initial one, for
every solver behaviour and source. -/
theorem claim10_benchmark_constant_dt :
    (∀ (constDt0 : Bool) (effect : Effect) (lossMin diffMin accelDti : ℚ),
      init_Delta_t true constDt0 effect lossMin diffMin accelDti =
        (match effect with
         | .loss => lossMin
         | .diffusion => diffMin
         | .all => min lossMin diffMin) *
        (if effect = .all then (1 : ℚ) / 2 else 1) * (1 / 10)) ∧
    (∀ (I J : ℕ) (cfg : CNConfig I J)
      (L Df : ℚ → (Fin (I + 1) → Fin J → ℚ) → (Fin (I + 1) → Fin J → ℚ))
      (dt0 : ℚ) (Q : Fin (I + 1) → Fin J → ℚ),
      cfg.benchmark = true → (cn_2D cfg L Df dt0 Q).dt = dt0) := by
  constructor
  · intro constDt0 effect lossMin diffMin accelDti
    cases effect <;> simp [init_Delta_t]
  · intro I J cfg L Df dt0 Q hb
    have h := cnLoop_dt_bench cfg L Df hb 10000 (initState cfg dt0 Q)
    simpa [cn_2D, initState] using h

/-- Concrete benchmark run exercising claim C10: with `benchmark` set the
final timestep equals the initial one, and the initialisation formula
evaluates as stated even though `const_Delta_t` was passed as `False`. -/
theorem claim10_witness :
    cfgBench.benchmark = true ∧
    (cn_2D cfgBench idStep idStep 5 unitQ).dt = 5 ∧
    init_Delta_t true false Effect.all 2 3 7 =
      min 2 3 * (if Effect.all = Effect.all then (1 : ℚ) / 2 else 1) * (1 / 10) :=
  ⟨rfl, claim10_benchmark_constant_dt.2 1 1 cfgBench idStep idStep 5 unitQ rfl,
    claim10_benchmark_constant_dt.1 false Effect.all 2 3 7⟩

theorem update_snaps_inv {I J : ℕ} (cfg : CNConfig I J) (L Df)
    (ha : cfg.animation = true) (s : CNState I J)
    (hl : s.snaps.length = s.t + 1) :
    (update cfg L Df s).snaps.length = (update cfg L Df s).t + 1 ∧
    (update cfg L Df s).snaps.getLast? =
      some (interior (update cfg L Df s).psi, (update cfg L Df s).dt) := by
  constructor
  · simp [update, ha, hl]
  · simp [update, ha, List.getLast?_concat]

theorem cnLoop_snaps_inv {I J : ℕ} (cfg : CNConfig I J) (L Df)
    (ha : cfg.animation = true) :
    ∀ (f : ℕ) (s : CNState I J), s.snaps.length = s.t + 1 →
      s.snaps.getLast? = some (interior s.psi, s.dt) →
      (cnLoop cfg L Df f s).snaps.length = (cnLoop cfg L Df f s).t + 1 ∧
      (cnLoop cfg L Df f s).snaps.getLast? =
        some (interior (cnLoop cfg L Df f s).psi, (cnLoop cfg L Df f s).dt) := by
  intro f
  induction f with
  | zero => intro s h1 h2; simpa [cnLoop] using ⟨h1, h2⟩
  | succ n ih =>
    intro s h1 h2
    rw [cnLoop]
    split
    · cases hstep : step cfg L Df s with
      | done s1 =>
        have hd : s1 = markConv s := step_done_eq cfg L Df s s1 hstep
        show s1.snaps.length = s1.t + 1 ∧
          s1.snaps.getLast? = some (interior s1.psi, s1.dt)
        rw [hd]
        exact ⟨h1, h2⟩
      | next s1 =>
        show (cnLoop cfg L Df n s1).snaps.length = (cnLoop cfg L Df n s1).t + 1 ∧
          (cnLoop cfg L Df n s1).snaps.getLast? =
            some (interior (cnLoop cfg L Df n s1).psi, (cnLoop cfg L Df n s1).dt)
        rcases step_next_eq cfg L Df s s1 hstep with hn | hn
        · have hinv := update_snaps_inv cfg L Df ha s h1
          rw [hn] at *
          exact ih _ hinv.1 hinv.2
        · have hr : (reduceDt cfg s).snaps.length = (reduceDt cfg s).t + 1 := by
            simpa [reduceDt] using h1
          have hinv := update_snaps_inv cfg L Df ha (reduceDt cfg s) hr
          rw [hn] at *
          exact ih _ hinv.1 hinv.2
    · exact ⟨h1, h2⟩

/-- Claim C7 (amended): with the animation flag on, the snapshot list at
return has one more element than the number of outer iterations performed
(the pre-loop state contributes an initial snapshot), and the final
snapshot is the interior of the returned `psi` paired with the timestep
then in force. -/
theorem claim7_snapshots {I J : ℕ} (cfg : CNConfig I J)
    (L Df : ℚ → (Fin (I + 1) → Fin J → ℚ) → (Fin (I + 1) → Fin J → ℚ))
    (dt0 : ℚ) (Q : Fin (I + 1) → Fin J → ℚ) (ha : cfg.animation = true) :
    (cn_2D cfg L Df dt0 Q).snaps.length = (cn_2D cfg L Df dt0 Q).t + 1 ∧
    (cn_2D cfg L Df dt0 Q).snaps.getLast? =
      some (interior (cn_2D cfg L Df dt0 Q).psi, (cn_2D cfg L Df dt0 Q).dt) := by
  refine cnLoop_snaps_inv cfg L Df ha 10000 (initState cfg dt0 Q) ?_ ?_
  · simp [initState, ha]
  · simp [initState, ha]

/-- Claim C7 fails as stated: a concrete constant-timestep animated run
converges after 2 outer iterations but returns 3 snapshots, so the
snapshot-sequence length does not equal the number of outer iterations. -/
theorem claim7_counterexample :
    (cn_2D cfgConst idStep idStep 1 unitQ).snaps.length = 3 ∧
    (cn_2D cfgConst idStep idStep 1 unitQ).t = 2 ∧
    (cn_2D cfgConst idStep idStep 1 unitQ).snaps.length ≠
      (cn_2D cfgConst idStep idStep 1 unitQ).t := by
  refine ⟨by decide, by decide, by decide⟩

/-- Concrete run exercising claim C7's amended statement. -/
theorem claim7_witness :
    cfgConst.animation = true ∧
    ((cn_2D cfgConst idStep idStep 1 unitQ).snaps.length =
      (cn_2D cfgConst idStep idStep 1 unitQ).t + 1 ∧
    (cn_2D cfgConst idStep idStep 1 unitQ).snaps.getLast? =
      some (interior (cn_2D cfgConst idStep idStep 1 unitQ).psi,
        (cn_2D cfgConst idStep idStep 1 unitQ).dt)) :=
  ⟨rfl, claim7_snapshots cfgConst idStep idStep 1 unitQ rfl⟩

/-- Claim C3 (amended): in accelerated mode (no benchmark, no constant
timestep), whenever the stability check holds the solver reduces `Delta_t`
and resets the inner counter if `Delta_t > Delta_t_min` (the rebuilt
stencils are reflected in the half-step solves receiving the reduced
`Delta_t`), and declares convergence when `ts_check` or `rel_diff` holds
only if `Delta_t < Delta_t_min` *strictly*; at `Delta_t = Delta_t_min`
exactly, neither branch fires and the iteration just continues. -/
theorem claim3_accelerated_branch {I J : ℕ} (cfg : CNConfig I J)
    (L Df : ℚ → (Fin (I + 1) → Fin J → ℚ) → (Fin (I + 1) → Fin J → ℚ))
    (s : CNState I J) (hb : cfg.benchmark = false) (hc : cfg.constDt = false)
    (hs : stabilityC cfg s = true) :
    (cfg.smallestDt < s.dt →
      step cfg L Df s = .next (update cfg L Df (reduceDt cfg s))) ∧
    (s.dt < cfg.smallestDt →
      ((tsC cfg s || relDiffC s) = true → step cfg L Df s = .done (markConv s)) ∧
      ((tsC cfg s || relDiffC s) = false →
        step cfg L Df s = .next (update cfg L Df s))) ∧
    (s.dt = cfg.smallestDt → step cfg L Df s = .next (update cfg L Df s)) := by
  refine ⟨?_, ?_, ?_⟩
  · intro h
    simp [step, hs, hb, hc, h]
  · intro h
    refine ⟨?_, ?_⟩ <;> intro h2 <;> simp [step, hs, hb, hc, asymm h, h, h2]
  · intro h
    simp [step, hs, hb, hc, h, lt_irrefl]

/-- Claim C3 fails as stated at `Delta_t = Delta_t_min` exactly: here the
stability check holds and `ts_check || rel_diff` holds, so the claim
demands convergence, but the strict `elif Delta_t < smallest_Delta_t`
comparison makes the solver neither converge nor reduce the timestep. -/
theorem claim3_counterexample :
    cfgAccel.benchmark = false ∧ cfgAccel.constDt = false ∧
    stabilityC cfgAccel stateAtMin = true ∧
    stateAtMin.dt = cfgAccel.smallestDt ∧
    (tsC cfgAccel stateAtMin || relDiffC stateAtMin) = true ∧
    (step cfgAccel idStep idStep stateAtMin).isDone = false ∧
    (step cfgAccel idStep idStep stateAtMin).dtv = stateAtMin.dt := by
  decide

/-- Concrete accelerated state exercising claim C3's reduction branch. -/
theorem claim3_witness :
    (cfgAccel.benchmark = false ∧ cfgAccel.constDt = false ∧
      stabilityC cfgAccel stateAboveMin = true ∧
      cfgAccel.smallestDt < stateAboveMin.dt) ∧
    step cfgAccel idStep idStep stateAboveMin =
      .next (update cfgAccel idStep idStep (reduceDt cfgAccel stateAboveMin)) :=
  ⟨⟨rfl, rfl, by decide, by decide⟩,
    (claim3_accelerated_branch cfgAccel idStep idStep stateAboveMin rfl rfl
      (by decide)).1 (by decide)⟩

/-- Claim C2 (amended): within block `i` of the energy-sweep matrices, the
super-diagonal entry at local index `j` is `-alpha3_E/2` in `A` and
`+alpha3_E/2` in `B` with `alpha3_E = Delta_t * eta_{j+1} * b_{i,j+1} /
Delta_E` only for `j < N_E - 2`; at `j = N_E - 2` (the last populated
super-diagonal slot) `spmatrices_loss` passes the truncated index array
`arange(J)[:-1]` to `E_alpha3`, whose last-position rule evaluates the
prefactor and loss rate at `j` itself instead of `j + 1`. -/
theorem claim2_super_diagonal (I J : ℕ) (dt dE : ℚ) (eta : ℕ → ℚ)
    (b : ℕ → ℕ → ℚ) (i j : ℕ) (hi : i < I) (hj : j + 1 < J) :
    loss_A I J dt dE eta b (i * J + j) (i * J + j + 1) =
      (if j + 2 < J then -(dt * (eta (j + 1) * b i (j + 1) / dE)) / 2
       else -(dt * (eta j * b i j / dE)) / 2) ∧
    loss_B I J dt dE eta b (i * J + j) (i * J + j + 1) =
      (if j + 2 < J then dt * (eta (j + 1) * b i (j + 1) / dE) / 2
       else dt * (eta j * b i j / dE) / 2) := by
  have hj0 : j < J := by omega
  have hr : i * J + j < I * J := by
    calc i * J + j < i * J + J := by omega
    _ = (i + 1) * J := by ring
    _ ≤ I * J := Nat.mul_le_mul_right J (by omega)
  have hc : i * J + j + 1 < I * J := by
    calc i * J + j + 1 < i * J + J := by omega
    _ = (i + 1) * J := by ring
    _ ≤ I * J := Nat.mul_le_mul_right J (by omega)
  have hku : k_u J dt dE eta b (i * J + j) =
      (if j + 2 < J then -(dt * (eta (j + 1) * b i (j + 1) / dE)) / 2
       else -(dt * (eta j * b i j / dE)) / 2) := by
    simp only [k_u, E_alpha3, idx_mod i j hj0, idx_div i j hj0]
    rw [if_pos (show j < J - 1 by omega)]
    by_cases h2 : j + 2 < J
    · rw [if_pos (show j + 1 < J - 1 by omega), if_pos h2]
    · rw [if_neg (show ¬j + 1 < J - 1 by omega), if_neg h2]
  constructor
  · unfold loss_A sp_diags
    rw [if_pos ⟨hr, hc⟩, if_pos rfl, hku]
  · unfold loss_B sp_diags
    rw [if_pos ⟨hr, hc⟩, if_pos rfl]
    show -k_u J dt dE eta b (i * J + j) = _
    rw [hku]
    by_cases h2 : j + 2 < J
    · rw [if_pos h2, if_pos h2]; ring
    · rw [if_neg h2, if_neg h2]; ring

/-- Claim C2 fails as stated at `j = N_E - 2`: on a 3-node energy grid with
unit prefactor and a loss rate that differs at the top node, the assembled
super-diagonal entry of block 0 at `j = 1` uses the coefficient evaluated
at `j = 1`, not the claimed value evaluated at `j + 1 = 2`. -/
theorem claim2_counterexample :
    loss_A 1 3 1 1 etaC bC 1 2 = -(1 / 2) ∧
    -(1 * (etaC (1 + 1) * bC 0 (1 + 1) / 1)) / 2 = -(5 / 2) ∧
    loss_A 1 3 1 1 etaC bC 1 2 ≠ -(1 * (etaC (1 + 1) * bC 0 (1 + 1) / 1)) / 2 := by
  refine ⟨by decide, by decide, by decide⟩

/-- Concrete instantiation of claim C2's amended statement at a cell away
from the boundary (`j + 2 < N_E`). -/
theorem claim2_witness :
    ((0:ℕ) < 1 ∧ (0:ℕ) + 1 < 4) ∧
    (loss_A 1 4 1 1 etaC bC (0 * 4 + 0) (0 * 4 + 0 + 1) =
      (if 0 + 2 < 4 then -(1 * (etaC (0 + 1) * bC 0 (0 + 1) / 1)) / 2
       else -(1 * (etaC 0 * bC 0 0 / 1)) / 2) ∧
    loss_B 1 4 1 1 etaC bC (0 * 4 + 0) (0 * 4 + 0 + 1) =
      (if 0 + 2 < 4 then 1 * (etaC (0 + 1) * bC 0 (0 + 1) / 1) / 2
       else 1 * (etaC 0 * bC 0 0 / 1) / 2)) :=
  ⟨⟨by decide, by decide⟩,
    claim2_super_diagonal 1 4 1 1 etaC bC 0 0 (by decide) (by decide)⟩

/-- Claim C4: with the `all` effect set, both half-step right-hand sides
carry the source with full weight `Delta_t`: subtracting the `Q = 0`
right-hand side isolates a contribution of exactly `dt * Q[i,j]` at cell
`(i,j)` in the energy sweep (row-major position `i*J + j`) and again in the
radial sweep (column-major position `j*I + i`), for a total injection of
`2 * dt * Q[i,j]` per outer iteration. -/
theorem claim4_source_injection (I J : ℕ) (BE BR : ℕ → ℕ → ℚ)
    (psiE psiR Q : ℕ → ℕ → ℚ) (dt : ℚ) (i j : ℕ) (hi : i < I) (hj : j < J) :
    rhs_loss I J BE psiE Q dt (i * J + j) -
      rhs_loss I J BE psiE (fun _ _ => 0) dt (i * J + j) = dt * Q i j ∧
    rhs_diff I J BR psiR Q dt (j * I + i) -
      rhs_diff I J BR psiR (fun _ _ => 0) dt (j * I + i) = dt * Q i j ∧
    rhs_loss I J BE psiE Q dt (i * J + j) -
      rhs_loss I J BE psiE (fun _ _ => 0) dt (i * J + j) +
      (rhs_diff I J BR psiR Q dt (j * I + i) -
        rhs_diff I J BR psiR (fun _ _ => 0) dt (j * I + i)) =
      2 * (dt * Q i j) := by
  have h1 : rhs_loss I J BE psiE Q dt (i * J + j) -
      rhs_loss I J BE psiE (fun _ _ => 0) dt (i * J + j) = dt * Q i j := by
    simp only [rhs_loss, flatC, idx_mod i j hj, idx_div i j hj]
    ring
  have h2 : rhs_diff I J BR psiR Q dt (j * I + i) -
      rhs_diff I J BR psiR (fun _ _ => 0) dt (j * I + i) = dt * Q i j := by
    simp only [rhs_diff, flatF, idx_mod j i hi, idx_div j i hi]
    ring
  refine ⟨h1, h2, ?_⟩
  rw [h1, h2]; ring

/-- Concrete instantiation of claim C4 on a one-cell grid. -/
theorem claim4_witness :
    ((0:ℕ) < 1 ∧ (0:ℕ) < 1) ∧
    (rhs_loss 1 1 (fun _ _ => 1) (fun _ _ => 1) (fun _ _ => 7) 3 (0 * 1 + 0) -
      rhs_loss 1 1 (fun _ _ => 1) (fun _ _ => 1) (fun _ _ => 0) 3 (0 * 1 + 0) =
        3 * 7 ∧
    rhs_diff 1 1 (fun _ _ => 1) (fun _ _ => 1) (fun _ _ => 7) 3 (0 * 1 + 0) -
      rhs_diff 1 1 (fun _ _ => 1) (fun _ _ => 1) (fun _ _ => 0) 3 (0 * 1 + 0) =
        3 * 7 ∧
    rhs_loss 1 1 (fun _ _ => 1) (fun _ _ => 1) (fun _ _ => 7) 3 (0 * 1 + 0) -
      rhs_loss 1 1 (fun _ _ => 1) (fun _ _ => 1) (fun _ _ => 0) 3 (0 * 1 + 0) +
      (rhs_diff 1 1 (fun _ _ => 1) (fun _ _ => 1) (fun _ _ => 7) 3 (0 * 1 + 0) -
        rhs_diff 1 1 (fun _ _ => 1) (fun _ _ => 1) (fun _ _ => 0) 3 (0 * 1 + 0)) =
        2 * (3 * 7)) :=
  ⟨⟨by decide, by decide⟩,
    claim4_source_injection 1 1 (fun _ _ => 1) (fun _ _ => 1) (fun _ _ => 1)
      (fun _ _ => 1) (fun _ _ => 7) 3 0 0 (by decide) (by decide)⟩

/-- Claim C8: every cell of the loss array equals
`c_IC*E^2 + c_sync*B^2*E^2 + c_Coul*n_e*(1 + ln(E/(m_e*n_e))/75) +
c_brem*n_e*E` with `c_IC = 6.08e-16 + 0.25e-16*(1+z)^4`,
`c_sync = 0.0254e-16`, `c_Coul = 6.13e-16`, `c_brem = 4.7e-16` and
`m_e = 0.511e-3`. -/
theorem claim8_loss_rate (z : ℝ) (b_sample ne_sample E_grid : ℕ → ℝ)
    (i j : ℕ) :
    b_grid z b_sample ne_sample E_grid i j =
      (6.08e-16 + 0.25e-16 * (1 + z) ^ 4) * E_grid j ^ 2 +
      0.0254e-16 * b_sample i ^ 2 * E_grid j ^ 2 +
      6.13e-16 * ne_sample i *
        (1 + Real.log (E_grid j / (0.511e-3 * ne_sample i)) / 75) +
      4.7e-16 * ne_sample i * E_grid j := by
  unfold b_grid set_b
  ring

/-- Claim C1 is a code bug: the source computes the drift factor with
`np.log10(10) = 1` instead of the natural logarithm `ln 10` that the claim
(and the surrounding log-transform code, which uses `np.log(10)` in the
prefactors) prescribes.  At `Delta_t = 1`, `Delta_rho = 1`, `xi_1 = 1`
(achieved with `rho = 0`, `r0 = 1/ln 10`), `D = 1`, `dDdr = 0`, the code
yields `alpha1_r = 1/2` and `alpha3_r = 3/2` while the claimed formulas
give `1 - ln 10 / 2` and `1 + ln 10 / 2`; the values differ because
`ln 10 > 1`. -/
theorem claim1_log10_code_bug :
    r_alpha1 1 1 (Real.log 10)⁻¹ (fun _ => 0) (fun _ _ => 1) (fun _ _ => 0) 1 0 =
      1 / 2 ∧
    r_alpha1_claim 1 1 (Real.log 10)⁻¹ (fun _ => 0) (fun _ _ => 1) (fun _ _ => 0)
      1 0 = 1 - Real.log 10 / 2 ∧
    r_alpha1 1 1 (Real.log 10)⁻¹ (fun _ => 0) (fun _ _ => 1) (fun _ _ => 0) 1 0 ≠
      r_alpha1_claim 1 1 (Real.log 10)⁻¹ (fun _ => 0) (fun _ _ => 1)
        (fun _ _ => 0) 1 0 ∧
    r_alpha3 1 1 (Real.log 10)⁻¹ (fun _ => 0) (fun _ _ => 1) (fun _ _ => 0) 1 0 =
      3 / 2 ∧
    r_alpha3_claim 1 1 (Real.log 10)⁻¹ (fun _ => 0) (fun _ _ => 1) (fun _ _ => 0)
      1 0 = 1 + Real.log 10 / 2 ∧
    r_alpha3 1 1 (Real.log 10)⁻¹ (fun _ => 0) (fun _ _ => 1) (fun _ _ => 0) 1 0 ≠
      r_alpha3_claim 1 1 (Real.log 10)⁻¹ (fun _ => 0) (fun _ _ => 1)
        (fun _ _ => 0) 1 0 := by
  have hne : Real.log 10 ≠ 0 := ne_of_gt (Real.log_pos (by norm_num))
  have hpf : ∀ i : ℕ, r_prefactor (Real.log 10)⁻¹ (fun _ => (0:ℝ)) i = 1 := by
    intro i
    simp [r_prefactor, Real.rpow_zero, mul_inv_cancel₀ hne]
  have hlogb : Real.logb 10 10 = 1 :=
    Real.logb_self_eq_one (by norm_num : (1:ℝ) < 10)
  have hgt : 1 < Real.log 10 := by
    calc (1:ℝ) = Real.log (Real.exp 1) := (Real.log_exp 1).symm
    _ < Real.log 10 :=
      Real.log_lt_log (Real.exp_pos 1) (lt_trans Real.exp_one_lt_d9 (by norm_num))
  have e1 : r_alpha1 1 1 (Real.log 10)⁻¹ (fun _ => 0) (fun _ _ => 1)
      (fun _ _ => 0) 1 0 = 1 / 2 := by
    simp [r_alpha1, hpf, hlogb]
    norm_num
  have e2 : r_alpha1_claim 1 1 (Real.log 10)⁻¹ (fun _ => 0) (fun _ _ => 1)
      (fun _ _ => 0) 1 0 = 1 - Real.log 10 / 2 := by
    simp [r_alpha1_claim, hpf]
    ring
  have e3 : r_alpha3 1 1 (Real.log 10)⁻¹ (fun _ => 0) (fun _ _ => 1)
      (fun _ _ => 0) 1 0 = 3 / 2 := by
    simp [r_alpha3, hpf, hlogb]
    norm_num
  have e4 : r_alpha3_claim 1 1 (Real.log 10)⁻¹ (fun _ => 0) (fun _ _ => 1)
      (fun _ _ => 0) 1 0 = 1 + Real.log 10 / 2 := by
    simp [r_alpha3_claim, hpf]
    ring
  refine ⟨e1, e2, ?_, e3, e4, ?_⟩
  · rw [e1, e2]
    intro hcon
    linarith
  · rw [e3, e4]
    intro hcon
    linarith

/-- Claim C9 (amended): `solveElectrons` performs no finiteness check on
`D`, `dDdr` or `b`; for every possible input (including ones whose
coefficient fields contain `inf` or `nan`) it proceeds directly into the
CN iteration and returns without any caller-visible error. -/
theorem claim9_no_finiteness_check {R : Type} (fpow : FVal → ℚ → FVal)
    (logFin : ℚ → ℚ) (pf : ℕ → FVal) (z D0 d0 alpha : ℚ)
    (E_grid b_sample ne_sample dBdr_sample : ℕ → FVal) (Q : ℕ → ℕ → FVal)
    (cn2d : (ℕ → ℕ → FVal) → (ℕ → ℕ → FVal) → (ℕ → ℕ → FVal) →
      (ℕ → ℕ → FVal) → R) :
    FModel.isOk (FModel.solveElectrons fpow logFin pf z D0 d0 alpha E_grid
      b_sample ne_sample dBdr_sample Q cn2d) = true := rfl

/-- Claim C9 fails as stated: with `n_e = 0` the Coulomb term evaluates to
`0 * inf = nan`, so the `b` field entry at cell `(0,0)` is non-finite, yet
`solveElectrons` still returns `Except.ok` (it proceeds silently into the
CN iteration) instead of failing with a fatal error. -/
theorem claim9_counterexample :
    (FModel.set_b (fun _ => 0) 0 (FVal.fin 1) (FVal.fin 0) (FVal.fin 1)).isFinite =
      false ∧
    FModel.isOk (FModel.solveElectrons (fun _ _ => FVal.fin 1) (fun _ => 0)
      (fun _ => FVal.fin 1) 0 1 1 1 (fun _ => FVal.fin 1) (fun _ => FVal.fin 1)
      (fun _ => FVal.fin 0) (fun _ => FVal.fin 1) (fun _ _ => FVal.fin 1)
      (fun _ _ _ _ => ())) = true := by
  refine ⟨by decide, rfl⟩

end DarkMatters
